import Mathlib

/-!
Verification of the async connection layer of duckdb-wasm
(`src/packages/duckdb-wasm/src/parallel/async_connection.ts`).

The development shallowly embeds the three classes of that file:
`AsyncResultStreamIterator` (the prefetch-pipelined result stream),
`AsyncDuckDBConnection` (connection handle, batch-insertion pipeline) and
`AsyncPreparedStatement` (prepared-statement handle).  Binary buffers
(`Uint8Array`) are modelled as `List Nat`; a rejected promise is modelled by
`Except.error`; the asynchronous Binding Surface (`AsyncDuckDB`) is modelled
by oracles that map the index of a call to the value/rejection with which the
corresponding promise settles.  The cooperative single-threaded scheduling of
the source means every `async` method body runs as an atomic state transition
between `await` points, so each method becomes a pure state-passing function.
-/

namespace DuckDBWasm

/-- A binary buffer (`Uint8Array` in the source); the empty list is the
zero-length chunk that terminates a result stream. -/
abbrev Chunk := List Nat

/-- The value with which one `fetchQueryResults` promise settles:
`Except.error` models a rejected promise. -/
abbrev FetchResult := Except String Chunk

/-- The Binding Surface as seen by one result stream: the k-th
`fetchQueryResults` call issued on the connection settles with `e k`. -/
abbrev Engine := Nat → FetchResult

instance {ε α : Type} [DecidableEq ε] [DecidableEq α] : DecidableEq (Except ε α)
  | Except.error e1, Except.error e2 =>
      if h : e1 = e2 then isTrue (h ▸ rfl)
      else isFalse (fun hc => h (Except.noConfusion hc id))
  | Except.error _, Except.ok _ => isFalse (fun hc => Except.noConfusion hc)
  | Except.ok _, Except.error _ => isFalse (fun hc => Except.noConfusion hc)
  | Except.ok a1, Except.ok a2 =>
      if h : a1 = a2 then isTrue (h ▸ rfl)
      else isFalse (fun hc => h (Except.noConfusion hc id))

/-- The value of one settled `next()` call: `done`/`value` of the JS
`IteratorResult`.  `value := none` models the literal `null`, `value := some
buffer` models a returned `Uint8Array` (possibly empty). -/
structure IterResult where
  done : Bool
  value : Option Chunk
deriving DecidableEq, Repr

/-- Micro-events of one `next()` call against the Binding Surface:
`issue` = a `fetchQueryResults` call is started (its promise is created),
`observe` = an `await` of such a promise finishes (with a value or by
throwing).  A fetch request can only be outstanding at the engine between its
`issue` and the first `observe` of its promise. -/
inductive Ev where
  | issue
  | observe
deriving DecidableEq, Repr

/-- The per-object state of `AsyncResultStreamIterator`: the three mutable
fields `_first`, `_depleted`, `_inFlight` of the class.  The stored pending
promise `_inFlight` is modelled by the value with which it will settle (or
has settled).  `calls` is the mock-engine instrumentation the spec asks for:
the number of `fetchQueryResults` calls issued so far on behalf of this
iterator; it indexes the `Engine` oracle and is touched exactly where the
source calls `this.db.fetchQueryResults(this.conn)`. -/
structure AsyncResultStreamIterator where
  _first : Bool
  _depleted : Bool
  _inFlight : Option FetchResult
  calls : Nat
deriving DecidableEq, Repr

/-- Constructor state: `_first = true`, `_depleted = false`,
`_inFlight = null`, no fetch issued yet. -/
def AsyncResultStreamIterator.init : AsyncResultStreamIterator :=
  ⟨true, false, none, 0⟩

/-- Result of one `next()` call: the settled value of the returned promise
(`Except.error` if `next()` rejected), the state of the iterator afterwards,
and the micro-events of the call in program order. -/
structure NextOut where
  res : Except String IterResult
  state : AsyncResultStreamIterator
  evs : List Ev
deriving DecidableEq, Repr

/-- One call of `AsyncResultStreamIterator.next` (source lines 151-174),
branch for branch:
* `_first`: return the header, no Binding Surface interaction;
* `_depleted`: return `{done: true, value: null}`;
* `_inFlight != null`: `await` it.  If the promise rejected, `next()`
  rethrows; the assignment `this._inFlight = null` on the following line is
  never reached, so the slot keeps the rejected promise.  Otherwise the slot
  is cleared and the buffer processed;
* `_inFlight == null`: call `fetchQueryResults` (event `issue`) and `await`
  it (event `observe`); a rejection rethrows with no state recorded beyond
  the issued call;
* processing: a zero-length buffer sets `_depleted` and is returned with
  `done = true`; a non-empty buffer causes the fire-and-forget prefetch
  `this._inFlight = this.db.fetchQueryResults(this.conn)` (event `issue`)
  before the buffer is returned with `done = false`. -/
def AsyncResultStreamIterator.next (e : Engine) (header : Chunk)
    (st : AsyncResultStreamIterator) : NextOut :=
  if st._first then
    { res := Except.ok ⟨false, some header⟩
      state := { st with _first := false }
      evs := [] }
  else if st._depleted then
    { res := Except.ok ⟨true, none⟩, state := st, evs := [] }
  else
    match st._inFlight with
    | some (Except.error msg) =>
        { res := Except.error msg, state := st, evs := [Ev.observe] }
    | some (Except.ok buffer) =>
        if buffer.length = 0 then
          { res := Except.ok ⟨true, some buffer⟩
            state := { st with _inFlight := none, _depleted := true }
            evs := [Ev.observe] }
        else
          { res := Except.ok ⟨false, some buffer⟩
            state := { st with _inFlight := some (e st.calls),
                               calls := st.calls + 1 }
            evs := [Ev.observe, Ev.issue] }
    | none =>
        match e st.calls with
        | Except.error msg =>
            { res := Except.error msg
              state := { st with calls := st.calls + 1 }
              evs := [Ev.issue, Ev.observe] }
        | Except.ok buffer =>
            if buffer.length = 0 then
              { res := Except.ok ⟨true, some buffer⟩
                state := { st with _depleted := true, calls := st.calls + 1 }
                evs := [Ev.issue, Ev.observe] }
            else
              { res := Except.ok ⟨false, some buffer⟩
                state := { st with _inFlight := some (e (st.calls + 1)),
                                   calls := st.calls + 2 }
                evs := [Ev.issue, Ev.observe, Ev.issue] }

/-- `n` successive `next()` calls by a single consumer (the only access
pattern the source supports): the list of settled results in order, the
final iterator state, and the concatenated micro-event trace. -/
def AsyncResultStreamIterator.run (e : Engine) (header : Chunk) :
    Nat → AsyncResultStreamIterator →
    List (Except String IterResult) × AsyncResultStreamIterator × List Ev
  | 0, st => ([], st, [])
  | Nat.succ n, st =>
      let o := AsyncResultStreamIterator.next e header st
      let r := AsyncResultStreamIterator.run e header n o.state
      (o.res :: r.1, r.2.1, o.evs ++ r.2.2)

/-- The C1 scenario engine: fetches deliver "A" (`[65]`), "B" (`[66]`), then
the empty terminating chunk. -/
def engineC1 : Engine :=
  fun k => if k = 0 then Except.ok [65] else if k = 1 then Except.ok [66]
           else Except.ok []

/-- C1: For a stream whose engine delivers header `[72]` ("HEADER") and
fetch results `[65]` ("A"), `[66]` ("B"), empty, the four `next()` calls
observe `(header, done=false)`, `([65], done=false)`, `([66], done=false)`,
`([], done=true)`; the first call issues no Binding Surface event; exactly 3
`fetchQueryResults` calls are issued in total; and the call that returns the
first data chunk has already issued the next fetch (trace
`[issue, observe, issue]`) before returning. -/
theorem c1_stream_scenario :
    (AsyncResultStreamIterator.run engineC1 [72] 4
        AsyncResultStreamIterator.init).1
      = [Except.ok ⟨false, some [72]⟩, Except.ok ⟨false, some [65]⟩,
         Except.ok ⟨false, some [66]⟩, Except.ok ⟨true, some []⟩] ∧
    (AsyncResultStreamIterator.run engineC1 [72] 4
        AsyncResultStreamIterator.init).2.1.calls = 3 ∧
    (AsyncResultStreamIterator.run engineC1 [72] 1
        AsyncResultStreamIterator.init).2.2 = [] ∧
    (AsyncResultStreamIterator.next engineC1 [72] ⟨false, false, none, 0⟩).evs
      = [Ev.issue, Ev.observe, Ev.issue] ∧
    (AsyncResultStreamIterator.run engineC1 [72] 4
        AsyncResultStreamIterator.init).2.2
      = [Ev.issue, Ev.observe, Ev.issue, Ev.observe, Ev.issue, Ev.observe] :=
  ⟨rfl, rfl, rfl, rfl, rfl⟩

/-- C2: from any depleted state (the header already delivered, a zero-length
chunk observed), every further `next()` call returns `{done: true, value:
null}`, the state is unchanged, and no Binding Surface event occurs — for
any number `N` of further calls. -/
theorem c2_depleted_idempotent (e : Engine) (h : Chunk)
    (st : AsyncResultStreamIterator) (N : Nat)
    (hf : st._first = false) (hd : st._depleted = true) :
    (AsyncResultStreamIterator.run e h N st).1
        = List.replicate N (Except.ok ⟨true, none⟩) ∧
    (AsyncResultStreamIterator.run e h N st).2.1 = st ∧
    (AsyncResultStreamIterator.run e h N st).2.2 = [] := by
  induction N with
  | zero => exact ⟨rfl, rfl, rfl⟩
  | succ n ih =>
      have hnext : AsyncResultStreamIterator.next e h st
          = { res := Except.ok ⟨true, none⟩, state := st, evs := [] } := by
        simp [AsyncResultStreamIterator.next, hf, hd]
      simp only [AsyncResultStreamIterator.run, hnext]
      refine ⟨?_, ih.2.1, ?_⟩
      · simp [List.replicate, ih.1]
      · simp [ih.2.2]

/-- A concrete depleted state for the C2 witness. -/
def stDepleted : AsyncResultStreamIterator := ⟨false, true, none, 2⟩

/-- An engine happy to answer — C2 says it is nevertheless never contacted. -/
def engineW : Engine := fun _ => Except.ok [1]

theorem c2_depleted_idempotent_witness :
    (stDepleted._first = false ∧ stDepleted._depleted = true) ∧
    ((AsyncResultStreamIterator.run engineW [9] 5 stDepleted).1
        = List.replicate 5 (Except.ok ⟨true, none⟩) ∧
     (AsyncResultStreamIterator.run engineW [9] 5 stDepleted).2.1
        = stDepleted ∧
     (AsyncResultStreamIterator.run engineW [9] 5 stDepleted).2.2 = []) :=
  ⟨⟨rfl, rfl⟩, c2_depleted_idempotent engineW [9] stDepleted 5 rfl rfl⟩

/-- Left fold of the one-outstanding-fetch check over a micro-event trace:
the boolean carries "a fetch has been issued whose promise has not yet been
observed"; a second `issue` in that situation is the violation (`none`).
`observe` clears the flag: the observed promise has settled, so the request
is no longer outstanding at the engine. -/
def scanPending : Bool → List Ev → Option Bool
  | b, [] => some b
  | b, Ev.issue :: rest => if b then none else scanPending true rest
  | _, Ev.observe :: rest => scanPending false rest

theorem scanPending_append (t1 t2 : List Ev) (b : Bool) :
    scanPending b (t1 ++ t2)
      = (scanPending b t1).bind fun b2 => scanPending b2 t2 := by
  induction t1 generalizing b with
  | nil => rfl
  | cons ev rest ih =>
      cases ev with
      | issue =>
          cases b with
          | false => simpa [scanPending] using ih true
          | true => simp [scanPending]
      | observe => simpa [scanPending] using ih false

theorem next_scanPending (e : Engine) (h : Chunk)
    (st : AsyncResultStreamIterator) (b : Bool)
    (hb : b = true → st._inFlight.isSome = true) :
    ∃ b2, scanPending b (AsyncResultStreamIterator.next e h st).evs = some b2 ∧
      (b2 = true →
        (AsyncResultStreamIterator.next e h st).state._inFlight.isSome = true) := by
  unfold AsyncResultStreamIterator.next
  by_cases hf : st._first = true
  · exact ⟨b, by simp [hf, scanPending], fun h2 => by simpa [hf] using hb h2⟩
  · have hf2 : st._first = false := by simpa using hf
    by_cases hd : st._depleted = true
    · exact ⟨b, by simp [hf2, hd, scanPending],
        fun h2 => by simpa [hf2, hd] using hb h2⟩
    · have hd2 : st._depleted = false := by simpa using hd
      match hin : st._inFlight with
      | some (Except.error msg) =>
          exact ⟨false, by simp [hf2, hd2, hin, scanPending], by simp⟩
      | some (Except.ok buffer) =>
          by_cases hlen : buffer.length = 0
          · exact ⟨false, by simp [hf2, hd2, hin, hlen, scanPending], by simp⟩
          · refine ⟨true, ?_, ?_⟩
            · simp [hf2, hd2, hin, hlen, scanPending]
            · intro _
              simp [hf2, hd2, hin, hlen]
      | none =>
          have hb2 : b = false := by
            cases b with
            | false => rfl
            | true => simpa [hin] using hb rfl
          subst hb2
          match hfetch : e st.calls with
          | Except.error msg =>
              exact ⟨false, by simp [hf2, hd2, hin, hfetch, scanPending], by simp⟩
          | Except.ok buffer =>
              by_cases hlen : buffer.length = 0
              · exact ⟨false,
                  by simp [hf2, hd2, hin, hfetch, hlen, scanPending], by simp⟩
              · refine ⟨true, ?_, ?_⟩
                · simp [hf2, hd2, hin, hfetch, hlen, scanPending]
                · intro _
                  simp [hf2, hd2, hin, hfetch, hlen]

theorem run_scanPending (e : Engine) (h : Chunk) (n : Nat)
    (st : AsyncResultStreamIterator) (b : Bool)
    (hb : b = true → st._inFlight.isSome = true) :
    ∃ b2, scanPending b (AsyncResultStreamIterator.run e h n st).2.2 = some b2 ∧
      (b2 = true →
        (AsyncResultStreamIterator.run e h n st).2.1._inFlight.isSome = true) := by
  induction n generalizing st b with
  | zero => exact ⟨b, rfl, hb⟩
  | succ n ih =>
      obtain ⟨b1, hscan1, hprop1⟩ := next_scanPending e h st b hb
      obtain ⟨b2, hscan2, hprop2⟩ :=
        ih (AsyncResultStreamIterator.next e h st).state b1 hprop1
      refine ⟨b2, ?_, ?_⟩
      · simp only [AsyncResultStreamIterator.run, scanPending_append,
          hscan1, Option.bind_some]
        exact hscan2
      · simpa only [AsyncResultStreamIterator.run] using hprop2

/-- C3: at most one fetch is ever outstanding.  For every engine, header,
number of `next()` calls and prefix of the resulting micro-event trace, the
one-outstanding check succeeds: a new `fetchQueryResults` call is never
issued while a previously issued one has not yet been observed to settle —
the in-flight slot holds the unique pipelined request between the call that
returned a non-empty chunk and the call that awaits it. -/
theorem c3_at_most_one_outstanding (e : Engine) (h : Chunk) (n k : Nat) :
    (scanPending false
        (((AsyncResultStreamIterator.run e h n
            AsyncResultStreamIterator.init).2.2).take k)).isSome = true := by
  obtain ⟨b2, hscan, -⟩ :=
    run_scanPending e h n AsyncResultStreamIterator.init false (by simp)
  set t := (AsyncResultStreamIterator.run e h n
      AsyncResultStreamIterator.init).2.2 with ht
  have hsplit : t = t.take k ++ t.drop k := (List.take_append_drop k t).symm
  rw [hsplit, scanPending_append] at hscan
  match htake : scanPending false (t.take k) with
  | some b1 => simp [htake]
  | none => rw [htake] at hscan; exact absurd hscan (by simp)

/-- The C4 counterexample engine: the very first `fetchQueryResults` call
(the one issued directly inside the second `next()`) rejects with "boom";
the engine then recovers and serves `[65]` forever. -/
def engineC4 : Engine :=
  fun k => if k = 0 then Except.error "boom" else Except.ok [65]

/-- C4 counterexample: with `engineC4`, the second `next()` call rejects
with "boom", yet the third `next()` call succeeds and yields the chunk
`[65]` — the iterator silently resumes after an unreported error, so it is
false that every `next()` call after a failed fetch also fails. -/
theorem c4_counterexample :
    (AsyncResultStreamIterator.run engineC4 [72] 3
        AsyncResultStreamIterator.init).1
      = [Except.ok ⟨false, some [72]⟩, Except.error "boom",
         Except.ok ⟨false, some [65]⟩] :=
  rfl

/-- C4 amended: (1) if the pre-issued in-flight fetch rejects, the awaiting
`next()` call fails with that error and — because the rejected promise stays
in the `_inFlight` slot — every one of the next `N` calls fails with the
same error and the state never changes; (2) if the fetch issued directly
inside `next()` (only possible while `_inFlight` is empty, i.e. for the
first data fetch) rejects, that `next()` call fails with the error, but the
only state change is the issued-call count: no depletion and no in-flight
rejection is recorded, so a subsequent call issues a fresh fetch and may
resume. -/
theorem c4_amended (e : Engine) (h : Chunk)
    (st : AsyncResultStreamIterator) (msg : String) :
    (st._first = false → st._depleted = false →
      st._inFlight = some (Except.error msg) →
      ∀ N, (AsyncResultStreamIterator.run e h N st).1
              = List.replicate N (Except.error msg) ∧
           (AsyncResultStreamIterator.run e h N st).2.1 = st) ∧
    (st._first = false → st._depleted = false → st._inFlight = none →
      e st.calls = Except.error msg →
      (AsyncResultStreamIterator.next e h st).res = Except.error msg ∧
      (AsyncResultStreamIterator.next e h st).state
        = { st with calls := st.calls + 1 }) := by
  constructor
  · intro hf hd hin N
    have hnext : AsyncResultStreamIterator.next e h st
        = { res := Except.error msg, state := st, evs := [Ev.observe] } := by
      simp [AsyncResultStreamIterator.next, hf, hd, hin]
    induction N with
    | zero => exact ⟨rfl, rfl⟩
    | succ n ih =>
        simp only [AsyncResultStreamIterator.run, hnext]
        exact ⟨by simp [List.replicate, ih.1], ih.2⟩
  · intro hf hd hin hfetch
    constructor
    · simp [AsyncResultStreamIterator.next, hf, hd, hin, hfetch]
    · simp [AsyncResultStreamIterator.next, hf, hd, hin, hfetch]

/-- A state whose in-flight slot holds a rejected promise, for the C4
witness. -/
def stInFlightErr : AsyncResultStreamIterator :=
  ⟨false, false, some (Except.error "boom"), 2⟩

/-- A streaming state with an empty in-flight slot, for the C4 witness. -/
def stNoInFlight : AsyncResultStreamIterator := ⟨false, false, none, 0⟩

theorem c4_amended_witness :
    ((AsyncResultStreamIterator.run engineC4 [72] 2 stInFlightErr).1
        = List.replicate 2 (Except.error "boom") ∧
     (AsyncResultStreamIterator.run engineC4 [72] 2 stInFlightErr).2.1
        = stInFlightErr) ∧
    ((AsyncResultStreamIterator.next engineC4 [72] stNoInFlight).res
        = Except.error "boom" ∧
     (AsyncResultStreamIterator.next engineC4 [72] stNoInFlight).state
        = { stNoInFlight with calls := 1 }) :=
  ⟨(c4_amended engineC4 [72] stInFlightErr "boom").1 rfl rfl rfl 2,
   (c4_amended engineC4 [72] stNoInFlight "boom").2 rfl rfl rfl rfl⟩

/-- One framing unit written into the `IPCBuffer` by the
`RecordBatchStreamWriter` of the source: `reset(buffer, schema)` writes the
schema header message, `write(batch)` appends the encoding of one record
batch, `finish()` appends the end-of-stream trailer.  `α` is the schema
type, `β` the record-batch type; the byte-level encoding is the external
Columnar Stream Encoder and is kept opaque. -/
inductive IPCItem (α β : Type) where
  | header (schema : α)
  | batch (b : β)
  | eof
deriving DecidableEq, Repr

/-- The contents of one `buffer.flush()`, i.e. the payload of one
`insertArrowFromIPCStream` Binding Surface call. -/
abbrev Payload (α β : Type) := List (IPCItem α β)

/-- The Binding Surface's `insertArrowFromIPCStream` as an oracle: the k-th
ingestion call issued on the connection settles with `ingest k`. -/
abbrev Ingest := Nat → Except String Unit

/-- The `for (const batch of batches)` loop of
`AsyncDuckDBConnection.insertArrowBatches` (source lines 106-115), plus the
`writer.finish()` and final flush+send after it.  Arguments: the `first`
flag, the buffer contents accumulated since the last flush, the payloads of
the ingestion calls issued so far (their count indexes the oracle), and the
remaining batches.  For each batch: if not the first, flush the buffer and
`await` the ingestion call — a rejection aborts the whole `async` method
(no further calls); then write the batch into the (now empty, if flushed)
buffer.  After the loop: `finish()` appends the trailer, and the final
buffer is flushed and sent.  Returns the settled result of the method and
the payloads of all ingestion calls issued, in order. -/
def insertGo {α β : Type} (ingest : Ingest) :
    Bool → Payload α β → List (Payload α β) → List β →
    Except String Unit × List (Payload α β)
  | _, buf, sent, [] =>
      (ingest sent.length, sent ++ [buf ++ [IPCItem.eof]])
  | first, buf, sent, b :: rest =>
      if first then
        insertGo ingest false (buf ++ [IPCItem.batch b]) sent rest
      else
        match ingest sent.length with
        | Except.error m => (Except.error m, sent ++ [buf])
        | Except.ok _ =>
            insertGo ingest false [IPCItem.batch b] (sent ++ [buf]) rest

/-- `AsyncDuckDBConnection.insertArrowBatches(schema, batches, options)`
(source lines 96-116): `new RecordBatchStreamWriter().reset(buffer, schema)`
eagerly writes the schema header message into the fresh buffer, then the
loop and the final flush run as in `insertGo` with `first = true`. -/
def insertArrowBatches {α β : Type} (ingest : Ingest) (schema : α)
    (batches : List β) : Except String Unit × List (Payload α β) :=
  insertGo ingest true [IPCItem.header schema] [] batches

/-- The record batches carried by one ingestion payload, in order. -/
def batchesOf {α β : Type} (p : Payload α β) : List β :=
  p.filterMap fun i =>
    match i with
    | IPCItem.batch b => some b
    | _ => none

/-- An always-succeeding ingestion oracle. -/
def ingestOk : Ingest := fun _ => Except.ok ()

/-- An ingestion oracle whose call number `j` (0-based) rejects with `msg`
and whose other calls succeed. -/
def ingestFailAt (j : Nat) (msg : String) : Ingest :=
  fun k => if k = j then Except.error msg else Except.ok ()

/-- The ingestion payloads produced by the loop from a non-`first` state
with buffer `buf` and remaining batches `rest`, when every ingestion call
succeeds: the current buffer is flushed once per remaining batch, and the
final flush carries the last buffer plus the end-of-stream trailer. -/
def payloadsSuffix {α β : Type} (buf : Payload α β) :
    List β → List (Payload α β)
  | [] => [buf ++ [IPCItem.eof]]
  | b :: rest => buf :: payloadsSuffix [IPCItem.batch b] rest

theorem insertGo_ok {α β : Type} (rest : List β) (buf : Payload α β)
    (sent : List (Payload α β)) :
    insertGo ingestOk false buf sent rest
      = (Except.ok (), sent ++ payloadsSuffix buf rest) := by
  induction rest generalizing buf sent with
  | nil => rfl
  | cons b rest ih =>
      simp only [insertGo, ingestOk, if_neg (by simp : ¬(false = true)),
        payloadsSuffix]
      rw [ih]
      simp

theorem payloadsSuffix_batches {α β : Type} (rest : List β)
    (buf : Payload α β) :
    (payloadsSuffix buf rest).map batchesOf
      = batchesOf buf :: rest.map (fun b => [b]) := by
  induction rest generalizing buf with
  | nil =>
      simp [payloadsSuffix, batchesOf, List.filterMap_append]
  | cons b rest ih =>
      simp only [payloadsSuffix, List.map_cons, ih, List.map_cons]
      refine congrArg _ (congrArg₂ _ ?_ rfl)
      simp [batchesOf]

theorem payloadsSuffix_split {α β : Type} (rest : List β)
    (buf : Payload α β) :
    ∃ mid fbuf, payloadsSuffix buf rest
      = mid ++ [fbuf ++ [(IPCItem.eof : IPCItem α β)]] := by
  induction rest generalizing buf with
  | nil => exact ⟨[], buf, rfl⟩
  | cons b rest ih =>
      obtain ⟨mid, fbuf, hmf⟩ := ih [IPCItem.batch b]
      exact ⟨buf :: mid, fbuf, by simp [payloadsSuffix, hmf]⟩

/-- C5: for a non-empty batch sequence `l` over one schema and an engine
that accepts every ingestion, `insertArrowBatches` succeeds, issues exactly
`l.length` ingestion calls, the k-th call carries exactly batch `l[k]` (so
the calls are in order `B1, …, Bn`, the first flush happening when `B2` is
about to be written), the first payload leads with the schema header, and
the last payload ends with the end-of-stream trailer written by
`finish()` — so the final flush is sent only after finalization. -/
theorem c5_batch_pipeline {α β : Type} (s : α) (l : List β) (hne : l ≠ []) :
    (insertArrowBatches ingestOk s l).1 = Except.ok () ∧
    (insertArrowBatches ingestOk s l).2.length = l.length ∧
    (insertArrowBatches ingestOk s l).2.map batchesOf
        = l.map (fun b => [b]) ∧
    ((insertArrowBatches ingestOk s l).2.head?).bind List.head?
        = some (IPCItem.header s) ∧
    ((insertArrowBatches ingestOk s l).2.getLast?).bind List.getLast?
        = some (IPCItem.eof : IPCItem α β) := by
  match l with
  | [] => exact absurd rfl hne
  | b :: rest =>
      have hrun : insertArrowBatches ingestOk s (b :: rest)
          = (Except.ok (),
             payloadsSuffix [IPCItem.header s, IPCItem.batch b] rest) := by
        simp only [insertArrowBatches, insertGo, if_pos rfl]
        rw [insertGo_ok]
        rfl
      have hbat := payloadsSuffix_batches rest
        [(IPCItem.header s : IPCItem α β), IPCItem.batch b]
      have hbat2 : (payloadsSuffix
          [(IPCItem.header s : IPCItem α β), IPCItem.batch b] rest).map
            batchesOf = (b :: rest).map (fun b => [b]) := by
        rw [hbat]
        simp [batchesOf]
      refine ⟨by rw [hrun], ?_, ?_, ?_, ?_⟩
      · have := congrArg List.length hbat2
        simpa [hrun] using this
      · rw [hrun]
        exact hbat2
      · rw [hrun]
        match rest with
        | [] => rfl
        | c :: rest2 => rfl
      · rw [hrun]
        obtain ⟨mid, fbuf, hmf⟩ := payloadsSuffix_split rest
          [(IPCItem.header s : IPCItem α β), IPCItem.batch b]
        rw [hmf]
        simp [List.getLast?_concat]

theorem c5_batch_pipeline_witness :
    (([1, 2, 3] : List Nat) ≠ []) ∧
    ((insertArrowBatches ingestOk (0 : Nat) [1, 2, 3]).1 = Except.ok () ∧
     (insertArrowBatches ingestOk (0 : Nat) [1, 2, 3]).2.length
        = ([1, 2, 3] : List Nat).length ∧
     (insertArrowBatches ingestOk (0 : Nat) [1, 2, 3]).2.map batchesOf
        = ([1, 2, 3] : List Nat).map (fun b => [b]) ∧
     ((insertArrowBatches ingestOk (0 : Nat) [1, 2, 3]).2.head?).bind
          List.head? = some (IPCItem.header 0) ∧
     ((insertArrowBatches ingestOk (0 : Nat) [1, 2, 3]).2.getLast?).bind
          List.getLast? = some (IPCItem.eof : IPCItem Nat Nat)) :=
  ⟨by decide, c5_batch_pipeline 0 [1, 2, 3] (by decide)⟩

/-- C6: for the empty batch sequence the loop body never runs, yet the
method still issues exactly one ingestion call, whose payload is the
header-only message (schema header then end-of-stream trailer) of an empty
table, and the method succeeds. -/
theorem c6_empty_batch_sequence {α β : Type} (s : α) :
    insertArrowBatches ingestOk s ([] : List β)
      = (Except.ok (), [[IPCItem.header s, IPCItem.eof]]) :=
  rfl

theorem payloadsSuffix_length {α β : Type} (rest : List β)
    (buf : Payload α β) :
    (payloadsSuffix buf rest).length = rest.length + 1 := by
  induction rest generalizing buf with
  | nil => rfl
  | cons b rest ih => simp [payloadsSuffix, ih]

theorem insertGo_fail {α β : Type} (j : Nat) (msg : String) (rest : List β)
    (buf : Payload α β) (sent : List (Payload α β))
    (hlo : sent.length ≤ j) (hhi : j ≤ sent.length + rest.length) :
    insertGo (ingestFailAt j msg) false buf sent rest
      = (Except.error msg,
         sent ++ (payloadsSuffix buf rest).take (j + 1 - sent.length)) := by
  induction rest generalizing buf sent with
  | nil =>
      have hj : sent.length = j := le_antisymm hlo (by simpa using hhi)
      have hfail : ingestFailAt j msg sent.length = Except.error msg := by
        simp [ingestFailAt, hj]
      have htake : j + 1 - sent.length = 1 := by omega
      simp [insertGo, hfail, payloadsSuffix, htake]
  | cons b rest ih =>
      by_cases hj : sent.length = j
      · have hfail : ingestFailAt j msg sent.length = Except.error msg := by
          simp [ingestFailAt, hj]
        have htake : j + 1 - sent.length = 1 := by omega
        simp [insertGo, hfail, payloadsSuffix, htake]
      · have hlt : sent.length < j := lt_of_le_of_ne hlo hj
        have hok : ingestFailAt j msg sent.length = Except.ok () := by
          simp [ingestFailAt, hj]
        have hhi2 : j ≤ sent.length + (rest.length + 1) := by
          simpa [List.length_cons, Nat.add_assoc] using hhi
        have hrec := ih [IPCItem.batch b] (sent ++ [buf])
          (by simpa using hlt)
          (by simp only [List.length_append, List.length_cons,
                List.length_nil]; omega)
        have htake : j + 1 - sent.length = (j + 1 - (sent.length + 1)) + 1 := by
          omega
        simp only [insertGo, if_neg (by simp : ¬(false = true)), hok]
        rw [hrec]
        simp only [payloadsSuffix, htake, List.take_succ_cons,
          List.length_append, List.length_cons, List.length_nil]
        simp

/-- C7: if ingestion call number `j` (0-based, `j < n`) rejects, the
insertion pipeline fails with that error, the ingestion calls issued are
exactly the first `j + 1` calls of the successful run (the rejected call
included, every later batch unsent, the already-sent payloads untouched —
no rollback is attempted by this layer), so exactly `j + 1` calls were
issued. -/
theorem c7_failure_halts_pipeline {α β : Type} (s : α) (l : List β)
    (j : Nat) (msg : String) (hj : j < l.length) :
    (insertArrowBatches (ingestFailAt j msg) s l).1 = Except.error msg ∧
    (insertArrowBatches (ingestFailAt j msg) s l).2
        = (insertArrowBatches ingestOk s l).2.take (j + 1) ∧
    (insertArrowBatches (ingestFailAt j msg) s l).2.length = j + 1 := by
  match l with
  | [] => exact absurd hj (by simp)
  | b :: rest =>
      have hjr : j ≤ rest.length := by
        simpa [Nat.lt_succ_iff] using hj
      have hrun : insertArrowBatches (ingestFailAt j msg) s (b :: rest)
          = (Except.error msg,
             (payloadsSuffix [IPCItem.header s, IPCItem.batch b] rest).take
               (j + 1)) := by
        simp only [insertArrowBatches, insertGo, if_pos rfl]
        rw [insertGo_fail j msg rest _ [] (by simp) (by simpa using hjr)]
        rfl
      have hok : (insertArrowBatches ingestOk s (b :: rest)).2
          = payloadsSuffix [IPCItem.header s, IPCItem.batch b] rest := by
        simp only [insertArrowBatches, insertGo, if_pos rfl]
        rw [insertGo_ok]
        rfl
      refine ⟨by rw [hrun], by rw [hrun, hok], ?_⟩
      rw [hrun]
      simp only [List.length_take, payloadsSuffix_length]
      omega

theorem c7_failure_halts_pipeline_witness :
    ((1 : Nat) < ([1, 2, 3] : List Nat).length) ∧
    ((insertArrowBatches (ingestFailAt 1 "io") (0 : Nat) [1, 2, 3]).1
        = Except.error "io" ∧
     (insertArrowBatches (ingestFailAt 1 "io") (0 : Nat) [1, 2, 3]).2
        = (insertArrowBatches ingestOk (0 : Nat) [1, 2, 3]).2.take 2 ∧
     (insertArrowBatches (ingestFailAt 1 "io") (0 : Nat) [1, 2, 3]).2.length
        = 2) :=
  ⟨by decide, c7_failure_halts_pipeline 0 [1, 2, 3] 1 "io" (by decide)⟩

/-- The fields of `AsyncDuckDBConnection` (source lines 8-17): the class
declares exactly the two `protected readonly` fields `_bindings` and
`_conn` and nothing else — in particular no busy flag, lock, or any other
mutable state.  `B` abstracts the `AsyncDuckDB` bindings object. -/
structure AsyncDuckDBConnection (B : Type) where
  _bindings : B
  _conn : Nat

/-- A Binding Surface request as issued by a connection-layer method. -/
inductive BSCall where
  | runQuery (conn : Nat) (text : String)
  | sendQuery (conn : Nat) (text : String)
  | fetchQueryResults (conn : Nat)
  | createPrepared (conn : Nat) (text : String)
  | closePrepared (conn : Nat) (stmt : Nat)
  | disconnect (conn : Nat)
deriving DecidableEq, Repr

/-- Starting `AsyncDuckDBConnection.runQuery(text)` (source lines 35-49):
before its first `await` the method logs and then unconditionally calls
`this._bindings.runQuery(this._conn, text)`.  The body contains no guard,
no state test and no field assignment, so the request issued and the
(unchanged) object afterwards are functions of the receiver alone — whether
another request on the same connection is still outstanding cannot influence
or be detected by this code, and the method has no pre-await error path. -/
def AsyncDuckDBConnection.startRunQuery {B : Type}
    (c : AsyncDuckDBConnection B) (text : String) :
    BSCall × AsyncDuckDBConnection B :=
  (BSCall.runQuery c._conn text, c)

/-- C8 counterexample: on connection 1, start `runQuery "q1"` and — before
its Binding Surface call settles — start `runQuery "q2"` on the same
`AsyncDuckDBConnection` object.  The second start issues its request
`runQuery(1, "q2")` unconditionally and leaves the object unchanged: no
error of any kind is raised, contradicting the claim that the
implementation detects the second in-flight operation and fails it. -/
theorem c8_counterexample :
    (AsyncDuckDBConnection.startRunQuery
        (⟨(), 1⟩ : AsyncDuckDBConnection Unit) "q1").2 = ⟨(), 1⟩ ∧
    AsyncDuckDBConnection.startRunQuery
        ((AsyncDuckDBConnection.startRunQuery
            (⟨(), 1⟩ : AsyncDuckDBConnection Unit) "q1").2) "q2"
      = (BSCall.runQuery 1 "q2", ⟨(), 1⟩) :=
  ⟨rfl, rfl⟩

/-- C8 amended: the implementation does not enforce the one-outstanding-
request-per-connection invariant; it relies on caller discipline.  Starting
an operation always issues its Binding Surface request, never raises an
error first, and never changes the connection object, so a second operation
started while the first is pending behaves exactly like the first: its
request is issued and silently interleaved.  (The only pipelined request the
layer itself creates, the iterator prefetch, stays unique by C3.) -/
theorem c8_amended {B : Type} (c : AsyncDuckDBConnection B)
    (t1 t2 : String) :
    (AsyncDuckDBConnection.startRunQuery c t1).1
        = BSCall.runQuery c._conn t1 ∧
    (AsyncDuckDBConnection.startRunQuery c t1).2 = c ∧
    (AsyncDuckDBConnection.startRunQuery
        (AsyncDuckDBConnection.startRunQuery c t1).2 t2).1
        = BSCall.runQuery c._conn t2 :=
  ⟨rfl, rfl, rfl⟩

/-- `AsyncDuckDBConnection.useUnsafe` (source lines 30-32): the whole body
is `return callback(this._bindings, this._conn)`. -/
def AsyncDuckDBConnection.useUnsafe {B R : Type}
    (c : AsyncDuckDBConnection B) (callback : B → Nat → R) : R :=
  callback c._bindings c._conn

/-- C10: for every callback `f`, `useUnsafe f` returns exactly
`f bindings conn` applied to the live bindings object and the raw
connection identifier — no check is made and (the connection holding no
mutable state) nothing is altered; the exclusively-owned identifier is
handed to arbitrary caller code, bypassing every handle-ownership
invariant. -/
theorem c10_useUnsafe {B R : Type} (c : AsyncDuckDBConnection B)
    (f : B → Nat → R) :
    AsyncDuckDBConnection.useUnsafe c f = f c._bindings c._conn :=
  rfl

/-- The Binding Surface's prepared-statement entry points as this layer
consumes them (`closePrepared`, `runPrepared`, `sendPrepared` of
`AsyncDuckDB`), as oracles from the identifiers (and parameters) to the
value with which the returned promise settles. -/
structure PreparedBindings where
  closePrepared : Nat → Nat → Except String Unit
  runPrepared : Nat → Nat → List Nat → Except String Chunk
  sendPrepared : Nat → Nat → List Nat → Except String Chunk

/-- The fields of `AsyncPreparedStatement` (source lines 182-195): three
`protected readonly` fields — bindings, connection id, statement id — and
no closed flag or any other mutable state. -/
structure AsyncPreparedStatement where
  bindings : PreparedBindings
  connectionId : Nat
  statementId : Nat

/-- `AsyncPreparedStatement.close` (source lines 198-200): awaits
`bindings.closePrepared(connectionId, statementId)`; no field is written,
so the object afterwards is unchanged. -/
def AsyncPreparedStatement.close (s : AsyncPreparedStatement) :
    Except String Unit × AsyncPreparedStatement :=
  (s.bindings.closePrepared s.connectionId s.statementId, s)

/-- `AsyncPreparedStatement.run` (source lines 203-209) up to the settled
binding call: awaits
`bindings.runPrepared(connectionId, statementId, params)` with the ids the
object holds; nothing is checked first. -/
def AsyncPreparedStatement.run (s : AsyncPreparedStatement)
    (params : List Nat) : Except String Chunk × AsyncPreparedStatement :=
  (s.bindings.runPrepared s.connectionId s.statementId params, s)

/-- `AsyncPreparedStatement.send` (source lines 212-219) up to the settled
binding call: awaits
`bindings.sendPrepared(connectionId, statementId, params)`; nothing is
checked first. -/
def AsyncPreparedStatement.send (s : AsyncPreparedStatement)
    (params : List Nat) : Except String Chunk × AsyncPreparedStatement :=
  (s.bindings.sendPrepared s.connectionId s.statementId params, s)

/-- A Binding Surface that accepts every prepared-statement call — e.g. one
whose engine does not invalidate (or has re-used) the statement id. -/
def lenientBindings : PreparedBindings :=
  ⟨fun _ _ => Except.ok (), fun _ _ _ => Except.ok [7],
   fun _ _ _ => Except.ok [7]⟩

/-- A concrete prepared statement over `lenientBindings`. -/
def stmtC9 : AsyncPreparedStatement := ⟨lenientBindings, 1, 5⟩

/-- C9 counterexample: on `stmtC9`, `close()` succeeds, and the subsequent
`run([])` and `send([])` on the very same statement object succeed silently
(`Except.ok`), because the class records nothing at close time and the
Binding Surface here accepts the stale id — contradicting the claim that
every post-close `run`/`send` is rejected. -/
theorem c9_counterexample :
    (AsyncPreparedStatement.close stmtC9).1 = Except.ok () ∧
    (AsyncPreparedStatement.run
        (AsyncPreparedStatement.close stmtC9).2 []).1 = Except.ok [7] ∧
    (AsyncPreparedStatement.send
        (AsyncPreparedStatement.close stmtC9).2 []).1 = Except.ok [7] :=
  ⟨rfl, rfl, rfl⟩

/-- C9 amended: `close()` only issues `closePrepared` and records nothing
(the statement object is unchanged), so `run`/`send` after `close` issue
`runPrepared`/`sendPrepared` with the same stale identifiers and behave
exactly as they would have before the close: they fail precisely when the
Binding Surface rejects the call — the client layer performs no
use-after-close detection of its own. -/
theorem c9_amended (s : AsyncPreparedStatement) (params : List Nat) :
    (AsyncPreparedStatement.close s).2 = s ∧
    AsyncPreparedStatement.run (AsyncPreparedStatement.close s).2 params
      = (s.bindings.runPrepared s.connectionId s.statementId params, s) ∧
    AsyncPreparedStatement.send (AsyncPreparedStatement.close s).2 params
      = (s.bindings.sendPrepared s.connectionId s.statementId params, s) :=
  ⟨rfl, rfl, rfl⟩

end DuckDBWasm
